import Mathlib

/-!
Shallow embedding of the tic-tac-toe session server (`server.js`).

JavaScript `Map`s (the room registry, a room's `players`, a room's
`disconnectTimers`) are modelled as insertion-ordered association lists with
unique keys; `Map.set` replaces the value in place when the key is present and
appends otherwise, `Map.delete` removes the entry.  Boards are `List String`
of length 9 whose cells are `""`, `"X"` or `"O"`; a JS out-of-range read
`board[i]` (yielding `undefined`, which is falsy and `!== ''`) is modelled by
`List.get?` returning `none`.  Randomness (`Math.random`) is passed in as an
explicit argument; timer handles are modelled by the data the timer callback
captures.
-/

namespace TicTacToe

/-- JS `Map.set k v`: replace the entry in place when `k` is already a key,
else append. -/
def setKey {β : Type} (k : String) (v : β) :
    List (String × β) → List (String × β)
  | [] => [(k, v)]
  | kp :: rest => if kp.1 == k then (k, v) :: rest else kp :: setKey k v rest

/-- JS `Map.delete k`: remove the entry for `k` (keys are unique in every map
the server builds, so filtering all matches equals deleting the single
entry). -/
def eraseKey {β : Type} (k : String) (m : List (String × β)) :
    List (String × β) :=
  m.filter (fun kp => kp.1 != k)

theorem lookup_cons_ne {β : Type} (k : String) (kp : String × β)
    (rest : List (String × β)) (h : k ≠ kp.1) :
    ((kp :: rest).lookup k) = rest.lookup k := by
  obtain ⟨k1, b1⟩ := kp
  have hb : (k == k1) = false := by simpa using h
  simp [List.lookup_cons, hb]

theorem lookup_setKey_self {β : Type} (k : String) (v : β)
    (m : List (String × β)) : (setKey k v m).lookup k = some v := by
  induction m with
  | nil => simp [setKey]
  | cons kp rest ih =>
    by_cases hk : kp.1 = k
    · simp [setKey, hk]
    · have hb : (kp.1 == k) = false := by simp [hk]
      rw [setKey, hb, if_neg (by simp), lookup_cons_ne k kp _ (fun h => hk h.symm)]
      exact ih

theorem lookup_setKey_ne {β : Type} (k k' : String) (v : β)
    (m : List (String × β)) (h : k' ≠ k) :
    (setKey k v m).lookup k' = m.lookup k' := by
  induction m with
  | nil => simp [setKey, lookup_cons_ne k' (k, v) [] h]
  | cons kp rest ih =>
    by_cases hk : kp.1 = k
    · have hb : (kp.1 == k) = true := by simp [hk]
      rw [setKey, hb, if_pos rfl,
        lookup_cons_ne k' (k, v) rest h, lookup_cons_ne k' kp rest (by rw [hk]; exact h)]
    · have hb : (kp.1 == k) = false := by simp [hk]
      rw [setKey, hb, if_neg (by simp)]
      by_cases hkp : k' = kp.1
      · obtain ⟨k1, b1⟩ := kp
        subst hkp
        simp [List.lookup_cons]
      · rw [lookup_cons_ne k' kp _ hkp, lookup_cons_ne k' kp _ hkp]
        exact ih

theorem lookup_eraseKey_self {β : Type} (k : String) (m : List (String × β)) :
    (eraseKey k m).lookup k = none := by
  rw [List.lookup_eq_none_iff]
  intro p hp
  rw [eraseKey, List.mem_filter] at hp
  have h2 := hp.2
  rw [bne_iff_ne] at h2
  rw [bne_iff_ne]
  exact fun h => h2 h.symm

theorem lookup_eraseKey_ne {β : Type} (k k' : String)
    (m : List (String × β)) (h : k' ≠ k) :
    (eraseKey k m).lookup k' = m.lookup k' := by
  induction m with
  | nil => simp [eraseKey]
  | cons kp rest ih =>
    by_cases hk : kp.1 = k
    · have hf : (kp.1 != k) = false := by simp [hk]
      rw [eraseKey, List.filter_cons, hf, if_neg (by simp),
        lookup_cons_ne k' kp rest (by rw [hk]; exact h)]
      exact ih
    · have hf : (kp.1 != k) = true := by simp [hk]
      rw [eraseKey, List.filter_cons, hf, if_pos rfl]
      by_cases hkp : k' = kp.1
      · obtain ⟨k1, b1⟩ := kp
        subst hkp
        simp [List.lookup_cons]
      · rw [lookup_cons_ne k' kp _ hkp, lookup_cons_ne k' kp _ hkp]
        exact ih

/-! ### Data model (`server.js` in-memory storage) -/

/-- Model of `room.scores` — `{ winsX: 0, winsO: 0, draws: 0 }`. -/
structure Scores where
  winsX : Nat
  winsO : Nat
  draws : Nat
deriving Repr, DecidableEq

/-- A `room.players` entry — `{ id, name, role, token }`. -/
structure Player where
  id : String
  name : String
  role : String
  token : String
deriving Repr, DecidableEq

/-- A `room.messages` entry — `{ playerId, playerName, message }`. -/
structure ChatMessage where
  playerId : String
  playerName : String
  message : String
deriving Repr, DecidableEq

/-- A `room.disconnectTimers` entry: the eviction timer handle, modelled by
the data its callback captured (`disconnectedPlayer.token`; the disconnected
socket id is the map key). -/
structure TimerInfo where
  token : String
deriving Repr, DecidableEq

/-- A room object: the spread of `initializeGameState()` plus `players`,
`lastStartingPlayer` and the lazily-created `disconnectTimers` map. -/
structure Room where
  board : List String
  currentPlayer : String
  gameActive : Bool
  scores : Scores
  messages : List ChatMessage
  winningCells : Option (List Nat)
  players : List (String × Player)
  lastStartingPlayer : String
  disconnectTimers : List (String × TimerInfo)
deriving Repr, DecidableEq

/-- A `waitingPlayers` entry — `{ socket, name }`, the socket kept as its id. -/
structure WaitingEntry where
  socketId : String
  name : String
deriving Repr, DecidableEq

/-- The module-level mutable state: `rooms` and `waitingPlayers`. -/
structure ServerState where
  rooms : List (String × Room)
  waitingPlayers : List WaitingEntry
deriving Repr, DecidableEq

/-- The `roomState` event payload built by `broadcastRoomState`. -/
structure RoomStatePayload where
  roomId : String
  players : List Player
  board : List String
  currentPlayer : String
  gameActive : Bool
  scores : Scores
  messages : List ChatMessage
  winningCells : Option (List Nat)
deriving Repr, DecidableEq

/-! ### Game logic -/

/-- The list `WINNING_COMBINATIONS`: 3 rows, then 3 columns, then 2 diagonals. -/
def WINNING_COMBINATIONS : List (Nat × Nat × Nat) :=
  [(0, 1, 2), (3, 4, 5), (6, 7, 8),
   (0, 3, 6), (1, 4, 7), (2, 5, 8),
   (0, 4, 8), (2, 4, 6)]

/-- Result object of `checkWin`: `{ win, winner?, winningCells? }`. -/
structure WinResult where
  win : Bool
  winner : Option String
  winningCells : Option (List Nat)
deriving Repr, DecidableEq

/-- The loop body's condition
`board[a] && board[a] === board[b] && board[a] === board[c]`
(a JS string is truthy iff non-empty; an out-of-range read yields `undefined`,
which is falsy, so the default `""` of `getD` gives the same outcome). -/
def comboWins (board : List String) (t : Nat × Nat × Nat) : Bool :=
  board.getD t.1 "" != "" && board.getD t.1 "" == board.getD t.2.1 ""
    && board.getD t.1 "" == board.getD t.2.2 ""

/-- Model of `checkWin(board)`: return at the first combination that wins, in the
declared order of `WINNING_COMBINATIONS`. -/
def checkWin (board : List String) : WinResult :=
  match WINNING_COMBINATIONS.find? (comboWins board) with
  | some t =>
    { win := true
      winner := some (board.getD t.1 "")
      winningCells := some [t.1, t.2.1, t.2.2] }
  | none => { win := false, winner := none, winningCells := none }

/-- Model of `checkDraw(board)`: `board.every(cell => cell !== '')`. -/
def checkDraw (board : List String) : Bool :=
  board.all (fun cell => cell != "")

/-- Model of `initializeGameState()` (together with the `players`/`lastStartingPlayer`
fields every construction site adds right after spreading it: both
`createRoom` and `findOpponent` use `players: new Map()` and
`lastStartingPlayer: 'X'`). -/
def initializeGameState : Room :=
  { board := List.replicate 9 ""
    currentPlayer := "X"
    gameActive := true
    scores := { winsX := 0, winsO := 0, draws := 0 }
    messages := []
    winningCells := none
    players := []
    lastStartingPlayer := "X"
    disconnectTimers := [] }

/-- Model of `resetGameForNewRound(room)`: `board.fill('')` rewrites every cell. -/
def resetGameForNewRound (room : Room) : Room :=
  let cp := if room.lastStartingPlayer == "X" then "O" else "X"
  { room with
    board := room.board.map (fun _ => "")
    gameActive := true
    winningCells := none
    currentPlayer := cp
    lastStartingPlayer := cp }

/-! ### Helper functions -/

/-- Note on `sanitize`: global replacement of each markup-significant character. -/
def sanitizeChar (c : Char) : String :=
  if c == '<' then "&lt;" else if c == '>' then "&gt;" else String.mk [c]

/-- Model of `sanitize(str)` — `replace(/</g, "&lt;").replace(/>/g, "&gt;")`. -/
def sanitize (s : String) : String :=
  String.join (s.toList.map sanitizeChar)

/-- The `chars` alphabet of `generateRoomId`. -/
def ROOM_ID_CHARS : List Char :=
  "ABCDEFGHJKLMNPQRSTUVWXYZ23456789".toList

/-- Model of `generateRoomId()`: four draws of
`chars.charAt(Math.floor(Math.random() * chars.length))`; the random draws
are the explicit argument (each is `< chars.length`, hence `Fin 32`; the
`getD` default is never reached). -/
def generateRoomId (rand : Fin 4 → Fin 32) : String :=
  String.mk ((List.finRange 4).map (fun i => ROOM_ID_CHARS.getD (rand i) 'A'))

/-- Model of `broadcastRoomState(roomId)`: the payload emitted to the room, `none`
when nothing is emitted (`if (!rooms.has(roomId)) return`). -/
def broadcastRoomState (rooms : List (String × Room)) (roomId : String) :
    Option RoomStatePayload :=
  match rooms.lookup roomId with
  | none => none
  | some room => some
    { roomId := roomId
      players := room.players.map (fun kp => kp.2)
      board := room.board
      currentPlayer := room.currentPlayer
      gameActive := room.gameActive
      scores := room.scores
      messages := room.messages
      winningCells := room.winningCells }

/-! ### Event handlers -/

/-- The `createRoom(playerName)` handler; `playerToken` stands for the fresh
`uuidv4()` and `rand` for the `Math.random()` draws of `generateRoomId`.
Returns the new state and the `roomId` sent back in `roomCreated`. -/
def createRoom (st : ServerState) (sockId playerName playerToken : String)
    (rand : Fin 4 → Fin 32) : ServerState × String :=
  let roomId := generateRoomId rand
  let sanitizedName := sanitize playerName
  let room := { initializeGameState with
    players := [(sockId,
      { id := sockId, name := sanitizedName, role := "X", token := playerToken })] }
  ({ st with rooms := setKey roomId room st.rooms }, roomId)

/-- Outcome of a `findOpponent` request. -/
inductive FindOpponentResult where
  | waitingForOpponent : FindOpponentResult
  | opponentFound (roomId player1Token player2Token : String) : FindOpponentResult
deriving Repr, DecidableEq

/-- The `findOpponent(playerName)` handler; `player1Token`/`player2Token` stand
for the two `uuidv4()` calls of the pairing branch. -/
def findOpponent (st : ServerState) (sockId playerName : String)
    (player1Token player2Token : String) (rand : Fin 4 → Fin 32) :
    ServerState × FindOpponentResult :=
  let sanitizedName := sanitize playerName
  match st.waitingPlayers with
  | opponent :: rest =>
    let roomId := generateRoomId rand
    let players1 := setKey opponent.socketId
      { id := opponent.socketId, name := opponent.name, role := "X",
        token := player1Token } []
    let players2 := setKey sockId
      { id := sockId, name := sanitizedName, role := "O",
        token := player2Token } players1
    let room := { initializeGameState with players := players2 }
    ({ rooms := setKey roomId room st.rooms, waitingPlayers := rest },
      .opponentFound roomId player1Token player2Token)
  | [] =>
    ({ st with waitingPlayers :=
        st.waitingPlayers ++ [{ socketId := sockId, name := sanitizedName }] },
      .waitingForOpponent)

/-- The `makeMove` handler, payload `roomId` and `cellIndex`.  Returns the new registry and
the `roomState` broadcast (`none` on every silent rejection path). -/
def makeMove (rooms : List (String × Room)) (sockId roomId : String)
    (cellIndex : Nat) : List (String × Room) × Option RoomStatePayload :=
  match rooms.lookup roomId with
  | none => (rooms, none)
  | some room =>
    match room.players.lookup sockId with
    | none => (rooms, none)
    | some player =>
      if player.role != room.currentPlayer
          || room.board[cellIndex]? != some ""
          || !room.gameActive then
        (rooms, none)
      else
        let board1 := room.board.set cellIndex room.currentPlayer
        let winResult := checkWin board1
        let room1 :=
          if winResult.win then
            { room with
              board := board1
              gameActive := false
              winningCells := winResult.winningCells
              scores :=
                if winResult.winner == some "X" then
                  { room.scores with winsX := room.scores.winsX + 1 }
                else
                  { room.scores with winsO := room.scores.winsO + 1 } }
          else if checkDraw board1 then
            { room with
              board := board1
              gameActive := false
              scores := { room.scores with draws := room.scores.draws + 1 } }
          else
            { room with
              board := board1
              currentPlayer :=
                if room.currentPlayer == "X" then "O" else "X" }
        let rooms1 := setKey roomId room1 rooms
        (rooms1, broadcastRoomState rooms1 roomId)

/-- Outcome of a `reconnectGame` request. -/
inductive ReconnectResult where
  | reconnectSuccess (roomId : String) : ReconnectResult
  | reconnectFailed : ReconnectResult
deriving Repr, DecidableEq

/-- The inner loop of `reconnectGame`: first player entry whose `token`
matches, in map insertion order. -/
def findPlayerByToken (players : List (String × Player)) (playerToken : String) :
    Option (String × Player) :=
  players.find? (fun kp => kp.2.token == playerToken)

/-- The `reconnectGame` handler, payload `playerToken`: scan live rooms in order; on the
first token match cancel the old identity's pending eviction timer, rekey the
player entry to the new socket id (mutating only its `id` field) and answer
`reconnectSuccess`; else answer `reconnectFailed`. -/
def reconnectGame : List (String × Room) → String → String →
    List (String × Room) × ReconnectResult
  | [], _, _ => ([], .reconnectFailed)
  | (roomId, room) :: rest, newId, playerToken =>
    match findPlayerByToken room.players playerToken with
    | some (oldSocketId, playerData) =>
      let playerData1 := { playerData with id := newId }
      let room1 := { room with
        disconnectTimers := eraseKey oldSocketId room.disconnectTimers
        players := setKey newId playerData1 (eraseKey oldSocketId room.players) }
      ((roomId, room1) :: rest, .reconnectSuccess roomId)
    | none =>
      let result := reconnectGame rest newId playerToken
      ((roomId, room) :: result.1, result.2)

/-- Model of `waitingPlayers.findIndex` plus `splice(index, 1)`: drop the first waiting
entry of the disconnecting socket, if any. -/
def removeFromWaiting (waiting : List WaitingEntry) (sockId : String) :
    List WaitingEntry :=
  match waiting.findIdx? (fun p => p.socketId == sockId) with
  | some i => waiting.eraseIdx i
  | none => waiting

/-- The room loop of the `disconnect` handler: on the first room holding the
socket, store an eviction timer handle keyed by the socket id (capturing the
disconnected player's token) and stop (`break`). -/
def addDisconnectTimer : List (String × Room) → String → List (String × Room)
  | [], _ => []
  | (roomId, room) :: rest, sockId =>
    match room.players.lookup sockId with
    | some p =>
      (roomId, { room with
        disconnectTimers :=
          setKey sockId { token := p.token } room.disconnectTimers }) :: rest
    | none => (roomId, room) :: addDisconnectTimer rest sockId

/-- The `disconnect` handler: remove the socket's waiting-queue entry, then
schedule an eviction timer on the first room it belongs to. -/
def disconnectStep (st : ServerState) (sockId : String) : ServerState :=
  { rooms := addDisconnectTimer st.rooms sockId
    waitingPlayers := removeFromWaiting st.waitingPlayers sockId }

/-- The eviction timer callback's effect on the captured room:
`playerStillExists = players.values().some(p => p.token === token)`; when it
holds, `players.delete(origId)` (the socket id the timer was keyed by). -/
def evictionExpiryRoom (room : Room) (origId capturedToken : String) : Room :=
  if room.players.any (fun kp => kp.2.token == capturedToken) then
    { room with players := eraseKey origId room.players }
  else room

/-- The eviction timer callback at registry level: update the captured room
(located by its id; the callback's captured reference is the registry's room
whenever the room is still registered), delete it when it has no players
left, else broadcast the room state. -/
def evictionExpiry (rooms : List (String × Room))
    (roomId origId capturedToken : String) :
    List (String × Room) × Option RoomStatePayload :=
  match rooms.lookup roomId with
  | none => (rooms, none)
  | some room =>
    let room1 := evictionExpiryRoom room origId capturedToken
    if room1.players.length == 0 then
      (eraseKey roomId rooms, none)
    else
      let rooms1 := setKey roomId room1 rooms
      (rooms1, broadcastRoomState rooms1 roomId)

/-- Spec-side predicate (from the spec's words): a winning triple is one
whose three cells are all non-empty and equal. -/
def tripleUniform (board : List String) (t : Nat × Nat × Nat) : Prop :=
  board.getD t.1 "" ≠ "" ∧ board.getD t.1 "" = board.getD t.2.1 ""
    ∧ board.getD t.1 "" = board.getD t.2.2 ""

instance (board : List String) (t : Nat × Nat × Nat) :
    Decidable (tripleUniform board t) := by
  unfold tripleUniform
  infer_instance

/-! ### General lemmas -/

theorem comboWins_iff_tripleUniform (board : List String) (t : Nat × Nat × Nat) :
    comboWins board t = true ↔ tripleUniform board t := by
  simp [comboWins, tripleUniform, Bool.and_eq_true, bne_iff_ne, beq_iff_eq,
    and_assoc]

theorem find?_first {α : Type} (p : α → Bool) :
    ∀ (pre : List α) (t : α) (post : List α), p t = true →
      (∀ u ∈ pre, p u = false) → (pre ++ t :: post).find? p = some t := by
  intro pre
  induction pre with
  | nil =>
    intro t post ht _
    simp [List.find?_cons, ht]
  | cons u rest ih =>
    intro t post ht hpre
    have hu : p u = false := hpre u (by simp)
    simp only [List.cons_append, List.find?_cons, hu]
    exact ih t post ht (fun v hv => hpre v (by simp [hv]))

theorem generateRoomId_length (rand : Fin 4 → Fin 32) :
    (generateRoomId rand).length = 4 := by
  simp [generateRoomId, String.length]

theorem generateRoomId_chars (rand : Fin 4 → Fin 32) :
    ∀ c ∈ (generateRoomId rand).toList, c ∈ ROOM_ID_CHARS := by
  intro c hc
  have hc2 : c ∈ (List.finRange 4).map (fun i => ROOM_ID_CHARS.getD (rand i) 'A') := by
    simpa [generateRoomId, String.toList] using hc
  rcases List.mem_map.mp hc2 with ⟨i, _, rfl⟩
  have hlt : ((rand i : Nat)) < ROOM_ID_CHARS.length := by
    have h32 : ROOM_ID_CHARS.length = 32 := by rfl
    rw [h32]
    exact (rand i).isLt
  rw [List.getD_eq_getElem?_getD, List.getElem?_eq_getElem hlt]
  exact List.getElem_mem hlt

/-! ### Claim theorems -/

/-- C6 (counterexample): the claim "`checkDraw` returns true iff the board
has zero empty cells AND no win was already detected on it" is false at the
full winning board `X X X / O O X / O X O`: every cell is non-empty and
`checkWin` detects a win, yet `checkDraw` still returns `true` — the function
itself never consults `checkWin`. -/
theorem checkDraw_claim_counterexample :
    ¬ (checkDraw ["X", "X", "X", "O", "O", "X", "O", "X", "O"] = true ↔
        ((["X", "X", "X", "O", "O", "X", "O", "X", "O"] : List String).all
            (fun cell => cell != "") = true ∧
          (checkWin ["X", "X", "X", "O", "O", "X", "O", "X", "O"]).win = false)) := by
  decide

/-- C6 (amended): `checkDraw` returns true iff the board has zero empty
cells; it does not consult the win state (the move handler obtains the
"full-board win counts as a win" behaviour by checking `checkWin` first). -/
theorem checkDraw_amended (board : List String) :
    checkDraw board = true ↔ ∀ cell ∈ board, cell ≠ "" := by
  simp [checkDraw, List.all_eq_true, bne_iff_ne]

/-- C3 (code evaluated at the failing input): the registry holds a live room
`"AAAA"` with history (scores 5/2/1); `createRoom` is served with random
draws that all pick alphabet index 0, so `generateRoomId` returns `"AAAA"`
again, and `rooms.set` silently replaces the existing room's state — the
claim's "never installs an id already held by a live room" fails. -/
theorem createRoom_collision_overwrites :
    (createRoom
        { rooms := [("AAAA",
            { initializeGameState with
              scores := { winsX := 5, winsO := 2, draws := 1 },
              players := [("p0",
                { id := "p0", name := "Bob", role := "X", token := "tokB" })] })],
          waitingPlayers := [] }
        "p1" "Eve" "tokE" (fun _ => 0)).2 = "AAAA" ∧
    (createRoom
        { rooms := [("AAAA",
            { initializeGameState with
              scores := { winsX := 5, winsO := 2, draws := 1 },
              players := [("p0",
                { id := "p0", name := "Bob", role := "X", token := "tokB" })] })],
          waitingPlayers := [] }
        "p1" "Eve" "tokE" (fun _ => 0)).1.rooms.length = 1 ∧
    ((createRoom
        { rooms := [("AAAA",
            { initializeGameState with
              scores := { winsX := 5, winsO := 2, draws := 1 },
              players := [("p0",
                { id := "p0", name := "Bob", role := "X", token := "tokB" })] })],
          waitingPlayers := [] }
        "p1" "Eve" "tokE" (fun _ => 0)).1.rooms.lookup "AAAA").map Room.scores =
      some { winsX := 0, winsO := 0, draws := 0 } ∧
    ((createRoom
        { rooms := [("AAAA",
            { initializeGameState with
              scores := { winsX := 5, winsO := 2, draws := 1 },
              players := [("p0",
                { id := "p0", name := "Bob", role := "X", token := "tokB" })] })],
          waitingPlayers := [] }
        "p1" "Eve" "tokE" (fun _ => 0)).1.rooms.lookup "AAAA").map
        (fun r => (r.players.lookup "p0").isSome) = some false := by
  decide

/-- C4 (code evaluated at the failing input): socket `s1` calls
`findOpponent` twice with nobody else waiting.  The first call leaves `s1` as
the only waiting entry; the second call pops that entry — `s1` itself — and
"pairs" the identity with itself: both `players.set` calls use the same key,
so the new room holds exactly one player, with role `"O"`, refuting "a
findOpponent request from an identity that is already the (only) waiting
entry cannot pair that identity with itself". -/
theorem findOpponent_self_pairing :
    ((findOpponent { rooms := [], waitingPlayers := [] }
        "s1" "Alice" "t1" "t2" (fun _ => 0)).1.waitingPlayers =
      [{ socketId := "s1", name := "Alice" }]) ∧
    (findOpponent (findOpponent { rooms := [], waitingPlayers := [] }
        "s1" "Alice" "t1" "t2" (fun _ => 0)).1
        "s1" "Alice" "t3" "t4" (fun _ => 0)).2 =
      FindOpponentResult.opponentFound "AAAA" "t3" "t4" ∧
    (findOpponent (findOpponent { rooms := [], waitingPlayers := [] }
        "s1" "Alice" "t1" "t2" (fun _ => 0)).1
        "s1" "Alice" "t3" "t4" (fun _ => 0)).1.waitingPlayers = [] ∧
    ((findOpponent (findOpponent { rooms := [], waitingPlayers := [] }
        "s1" "Alice" "t1" "t2" (fun _ => 0)).1
        "s1" "Alice" "t3" "t4" (fun _ => 0)).1.rooms.lookup "AAAA").map
        Room.players =
      some [("s1", { id := "s1", name := "Alice", role := "O", token := "t4" })] := by
  decide

/-- C7: `resetGameForNewRound` clears all 9 board cells, clears
`winningCells`, re-activates the game, starts the new round with the
alternate of `lastStartingPlayer`, records that mark as the new
`lastStartingPlayer`, and leaves scores and messages unchanged; consecutive
resets therefore alternate the starting mark regardless of the rest of the
room state. -/
theorem resetGameForNewRound_spec (room : Room) (h9 : room.board.length = 9) :
    (resetGameForNewRound room).board = List.replicate 9 "" ∧
    (resetGameForNewRound room).winningCells = none ∧
    (resetGameForNewRound room).gameActive = true ∧
    (room.lastStartingPlayer = "X" →
      (resetGameForNewRound room).currentPlayer = "O") ∧
    (room.lastStartingPlayer ≠ "X" →
      (resetGameForNewRound room).currentPlayer = "X") ∧
    (resetGameForNewRound room).lastStartingPlayer =
      (resetGameForNewRound room).currentPlayer ∧
    (resetGameForNewRound room).scores = room.scores ∧
    (resetGameForNewRound room).messages = room.messages ∧
    (∀ n : Nat,
      (resetGameForNewRound^[n + 2] room).currentPlayer ≠
        (resetGameForNewRound^[n + 1] room).currentPlayer) := by
  refine ⟨?_, rfl, rfl, ?_, ?_, ?_, rfl, rfl, ?_⟩
  · rw [List.eq_replicate_iff]
    constructor
    · simp [resetGameForNewRound, h9]
    · intro x hx
      simp only [resetGameForNewRound] at hx
      rcases List.mem_map.mp hx with ⟨a, _, rfl⟩
      rfl
  · intro h
    simp [resetGameForNewRound, h]
  · intro h
    have hb : (room.lastStartingPlayer == "X") = false := by simp [h]
    simp [resetGameForNewRound, hb]
  · by_cases h : room.lastStartingPlayer = "X" <;>
      simp [resetGameForNewRound, h]
  · intro n
    have step : ∀ r : Room,
        r.lastStartingPlayer = r.currentPlayer →
        (r.currentPlayer = "X" ∨ r.currentPlayer = "O") →
        (resetGameForNewRound r).currentPlayer ≠ r.currentPlayer := by
      intro r hls hxo
      rcases hxo with h | h <;>
        simp [resetGameForNewRound, hls, h]
    have post : ∀ r : Room,
        (resetGameForNewRound r).lastStartingPlayer =
          (resetGameForNewRound r).currentPlayer ∧
        ((resetGameForNewRound r).currentPlayer = "X" ∨
          (resetGameForNewRound r).currentPlayer = "O") := by
      intro r
      constructor
      · rfl
      · by_cases h : r.lastStartingPlayer = "X" <;>
          simp [resetGameForNewRound, h]
    have h1 : resetGameForNewRound^[n + 1] room =
        resetGameForNewRound (resetGameForNewRound^[n] room) := by
      rw [Function.iterate_succ_apply']
    have h2 : resetGameForNewRound^[n + 2] room =
        resetGameForNewRound (resetGameForNewRound^[n + 1] room) := by
      rw [Function.iterate_succ_apply']
    rw [h2, h1]
    exact step _ (post _).1 (post _).2

/-- C7 witness: the concrete initial room (which starts rounds with `X`)
resets to a round started by `O`. -/
theorem resetGameForNewRound_spec_witness :
    (resetGameForNewRound initializeGameState).currentPlayer = "O" :=
  (resetGameForNewRound_spec initializeGameState (by decide)).2.2.2.1 rfl

/-- C5: `checkWin` reports a win iff at least one of the 8 fixed triples
(3 rows, then 3 columns, then 2 diagonals, in the declared order of
`WINNING_COMBINATIONS`) has all three cells non-empty and equal; whenever the
first qualifying triple in that order is `t`, the reported winner is `t`'s
mark and the reported `winningCells` are exactly `t`. -/
theorem checkWin_spec (board : List String) :
    ((checkWin board).win = true ↔
      ∃ t ∈ WINNING_COMBINATIONS, tripleUniform board t) ∧
    (∀ pre t post, WINNING_COMBINATIONS = pre ++ t :: post →
      tripleUniform board t → (∀ u ∈ pre, ¬ tripleUniform board u) →
      (checkWin board).winner = some (board.getD t.1 "") ∧
      (checkWin board).winningCells = some [t.1, t.2.1, t.2.2]) := by
  constructor
  · constructor
    · intro hwin
      unfold checkWin at hwin
      cases hfind : WINNING_COMBINATIONS.find? (comboWins board) with
      | none =>
        rw [hfind] at hwin
        simp at hwin
      | some t =>
        have hmem := List.mem_of_find?_eq_some hfind
        have hp := List.find?_some hfind
        exact ⟨t, hmem, (comboWins_iff_tripleUniform board t).mp hp⟩
    · rintro ⟨t, hmem, huni⟩
      unfold checkWin
      cases hfind : WINNING_COMBINATIONS.find? (comboWins board) with
      | none =>
        have hnone := List.find?_eq_none.mp hfind t hmem
        exact absurd ((comboWins_iff_tripleUniform board t).mpr huni)
          (by simpa using hnone)
      | some u => rfl
  · intro pre t post hdecomp huni hpre
    have hfind : WINNING_COMBINATIONS.find? (comboWins board) = some t := by
      rw [hdecomp]
      apply find?_first
      · exact (comboWins_iff_tripleUniform board t).mpr huni
      · intro u hu
        cases h : comboWins board u
        · rfl
        · exact absurd ((comboWins_iff_tripleUniform board u).mp h) (hpre u hu)
    unfold checkWin
    rw [hfind]
    exact ⟨rfl, rfl⟩

/-- C5 witness: on the board whose top row is three `X`s, the first
qualifying triple is the first row, so the winner is `"X"` on cells
`[0, 1, 2]`. -/
theorem checkWin_spec_witness :
    (checkWin ["X", "X", "X", "", "", "", "", "", ""]).winner = some "X" ∧
    (checkWin ["X", "X", "X", "", "", "", "", "", ""]).winningCells =
      some [0, 1, 2] :=
  (checkWin_spec ["X", "X", "X", "", "", "", "", "", ""]).2
    [] (0, 1, 2) [(3, 4, 5), (6, 7, 8), (0, 3, 6), (1, 4, 7), (2, 5, 8),
      (0, 4, 8), (2, 4, 6)]
    rfl (by decide) (by intro u hu; cases hu)

/-- C2: every rejected `makeMove` — unknown room, actor not a player of
the room, actor's role different from `currentPlayer`, cell index outside
0..8 (an out-of-range read is `undefined`, hence not `""`), target cell
non-empty, or game inactive — leaves the whole registry (hence every room's
board, `currentPlayer`, `gameActive`, scores, messages, `winningCells` and
players) unchanged and emits no broadcast. -/
theorem makeMove_reject_spec (rooms : List (String × Room))
    (sockId roomId : String) (cellIndex : Nat)
    (h : rooms.lookup roomId = none ∨
      ∃ room, rooms.lookup roomId = some room ∧
        (room.players.lookup sockId = none ∨
          (∃ p, room.players.lookup sockId = some p ∧
            p.role ≠ room.currentPlayer) ∨
          room.board.length ≤ cellIndex ∨
          room.board[cellIndex]? ≠ some "" ∨
          room.gameActive = false)) :
    makeMove rooms sockId roomId cellIndex = (rooms, none) := by
  rcases h with hnone | ⟨room, hroom, hrej⟩
  · simp [makeMove, hnone]
  · rcases hrej with hp | ⟨p, hp, hrole⟩ | hlen | hcell | hinactive
    · simp [makeMove, hroom, hp]
    · have hb : (p.role != room.currentPlayer) = true := by
        simpa [bne_iff_ne] using hrole
      simp [makeMove, hroom, hp, hb]
    · have hcell2 : room.board[cellIndex]? = none :=
        List.getElem?_eq_none hlen
      cases hq : room.players.lookup sockId with
      | none => simp [makeMove, hroom, hq]
      | some q => simp [makeMove, hroom, hq, hcell2]
    · have hb : (room.board[cellIndex]? != some "") = true := by
        simpa [bne_iff_ne] using hcell
      cases hq : room.players.lookup sockId with
      | none => simp [makeMove, hroom, hq]
      | some q => simp [makeMove, hroom, hq, hb]
    · cases hq : room.players.lookup sockId with
      | none => simp [makeMove, hroom, hq]
      | some q => simp [makeMove, hroom, hq, hinactive]

/-- C2 witness: a move referencing an unknown room id is rejected with the
registry unchanged and nothing broadcast. -/
theorem makeMove_reject_spec_witness :
    makeMove [] "s1" "R1" 0 = ([], none) :=
  makeMove_reject_spec [] "s1" "R1" 0 (Or.inl rfl)

/-- C9: when an eviction timer fires — under the invariant that the entry
still registered under the timer's original identity, if any, is the player
the timer was created for — the player is removed iff a player bearing the
captured token is still registered under the original identity; a player
registered under any other identity (a reconnected player in particular)
always survives; and when the room is left with zero players it is deleted
from the registry (its scores and messages go with it), else it stays with
the updated players mapping. -/
theorem evictionExpiry_spec (rooms : List (String × Room))
    (roomId origId capturedToken : String) (room : Room)
    (hroom : rooms.lookup roomId = some room)
    (_hinv : ∀ p, room.players.lookup origId = some p →
      p.token = capturedToken) :
    ((∃ p, room.players.lookup origId = some p ∧ p.token = capturedToken) →
      (evictionExpiryRoom room origId capturedToken).players =
        eraseKey origId room.players ∧
      (evictionExpiryRoom room origId capturedToken).players.lookup origId =
        none) ∧
    (room.players.lookup origId = none →
      (evictionExpiryRoom room origId capturedToken).players = room.players) ∧
    (∀ k q, k ≠ origId → room.players.lookup k = some q →
      (evictionExpiryRoom room origId capturedToken).players.lookup k =
        some q) ∧
    ((evictionExpiryRoom room origId capturedToken).players = [] →
      (evictionExpiry rooms roomId origId capturedToken).1.lookup roomId =
        none) ∧
    ((evictionExpiryRoom room origId capturedToken).players ≠ [] →
      (evictionExpiry rooms roomId origId capturedToken).1.lookup roomId =
        some (evictionExpiryRoom room origId capturedToken)) := by
  refine ⟨?_, ?_, ?_, ?_, ?_⟩
  · rintro ⟨p, hp, htok⟩
    have hmem : (origId, p) ∈ room.players := by
      rcases List.lookup_eq_some_iff.mp hp with ⟨l1, l2, heq, _⟩
      rw [heq]
      simp
    have hany : room.players.any (fun kp => kp.2.token == capturedToken) = true := by
      rw [List.any_eq_true]
      exact ⟨(origId, p), hmem, by simp [htok]⟩
    constructor
    · simp [evictionExpiryRoom, hany]
    · simp [evictionExpiryRoom, hany, lookup_eraseKey_self]
  · intro hnone
    unfold evictionExpiryRoom
    split
    · show eraseKey origId room.players = room.players
      rw [eraseKey]
      apply List.filter_eq_self.mpr
      intro kp hkp
      have h1 := List.lookup_eq_none_iff.mp hnone kp hkp
      rw [bne_iff_ne] at h1 ⊢
      exact fun h => h1 h.symm
    · rfl
  · intro k q hk hq
    unfold evictionExpiryRoom
    split
    · show (eraseKey origId room.players).lookup k = some q
      rw [lookup_eraseKey_ne origId k room.players hk]
      exact hq
    · exact hq
  · intro hempty
    have hlen : ((evictionExpiryRoom room origId capturedToken).players.length == 0) = true := by
      simp [hempty]
    simp [evictionExpiry, hroom, hlen, lookup_eraseKey_self]
  · intro hne
    have hlen : ((evictionExpiryRoom room origId capturedToken).players.length == 0) = false := by
      simp only [beq_eq_false_iff_ne, ne_eq, List.length_eq_zero]
      exact hne
    simp [evictionExpiry, hroom, hlen, lookup_setKey_self]

/-- C9 witness: a room whose sole player `old1` (token `tok`) never
reconnected; on expiry the player is removed and the now-empty room is
deleted from the registry. -/
theorem evictionExpiry_spec_witness :
    ((evictionExpiryRoom
        { initializeGameState with players := [("old1",
          { id := "old1", name := "Ann", role := "X", token := "tok" })] }
        "old1" "tok").players =
      eraseKey "old1" [("old1",
        { id := "old1", name := "Ann", role := "X", token := "tok" })] ∧
      (evictionExpiryRoom
        { initializeGameState with players := [("old1",
          { id := "old1", name := "Ann", role := "X", token := "tok" })] }
        "old1" "tok").players.lookup "old1" = none) ∧
    ((evictionExpiry
        [("R1", { initializeGameState with players := [("old1",
          { id := "old1", name := "Ann", role := "X", token := "tok" })] })]
        "R1" "old1" "tok").1.lookup "R1" = none) := by
  have h := evictionExpiry_spec
    [("R1", { initializeGameState with players := [("old1",
      { id := "old1", name := "Ann", role := "X", token := "tok" })] })]
    "R1" "old1" "tok"
    { initializeGameState with players := [("old1",
      { id := "old1", name := "Ann", role := "X", token := "tok" })] }
    rfl
    (by
      intro p hp
      have : p = { id := "old1", name := "Ann", role := "X", token := "tok" } := by
        injection hp.symm
      rw [this])
  refine ⟨h.1 ⟨{ id := "old1", name := "Ann", role := "X", token := "tok" },
    rfl, rfl⟩, h.2.2.2.1 (by decide)⟩

/-- Frame of the disconnect handler's room loop: every registered room keeps
its id and its whole state except `disconnectTimers`. -/
theorem addDisconnectTimer_frame (sockId : String) :
    ∀ rooms : List (String × Room), ∀ roomId room,
      rooms.lookup roomId = some room →
      ∃ room1, (addDisconnectTimer rooms sockId).lookup roomId = some room1 ∧
        room1.board = room.board ∧ room1.currentPlayer = room.currentPlayer ∧
        room1.gameActive = room.gameActive ∧ room1.scores = room.scores ∧
        room1.messages = room.messages ∧
        room1.winningCells = room.winningCells ∧
        room1.players = room.players ∧
        room1.lastStartingPlayer = room.lastStartingPlayer := by
  intro rooms
  induction rooms with
  | nil =>
    intro roomId room h
    simp at h
  | cons kr rest ih =>
    intro roomId room h
    obtain ⟨rid, r⟩ := kr
    by_cases hid : roomId = rid
    · subst hid
      rw [List.lookup_cons_self] at h
      injection h with h
      subst h
      cases hp : r.players.lookup sockId with
      | some p =>
        refine ⟨({ r with
          disconnectTimers :=
            setKey sockId ({ token := p.token } : TimerInfo)
              r.disconnectTimers } : Room),
          ?_, rfl, rfl, rfl, rfl, rfl, rfl, rfl, rfl⟩
        simp [addDisconnectTimer, hp, List.lookup_cons_self]
      | none =>
        refine ⟨r, ?_, rfl, rfl, rfl, rfl, rfl, rfl, rfl, rfl⟩
        simp [addDisconnectTimer, hp, List.lookup_cons_self]
    · rw [lookup_cons_ne roomId (rid, r) rest hid] at h
      cases hp : r.players.lookup sockId with
      | some p =>
        refine ⟨room, ?_, rfl, rfl, rfl, rfl, rfl, rfl, rfl, rfl⟩
        simp only [addDisconnectTimer, hp]
        rw [lookup_cons_ne roomId _ rest hid]
        exact h
      | none =>
        rcases ih roomId room h with ⟨room1, h1, hf⟩
        refine ⟨room1, ?_, hf⟩
        simp only [addDisconnectTimer, hp]
        rw [lookup_cons_ne roomId (rid, r) _ hid]
        exact h1

/-- The disconnect handler's room loop never adds or removes rooms. -/
theorem addDisconnectTimer_keys (sockId : String) :
    ∀ rooms : List (String × Room),
      (addDisconnectTimer rooms sockId).map Prod.fst = rooms.map Prod.fst := by
  intro rooms
  induction rooms with
  | nil => rfl
  | cons kr rest ih =>
    obtain ⟨rid, r⟩ := kr
    cases hp : r.players.lookup sockId with
    | some p => simp [addDisconnectTimer, hp]
    | none => simp [addDisconnectTimer, hp, ih]

/-- The eviction callback's room update touches only `players`. -/
theorem evictionExpiryRoom_frame (room : Room) (origId capturedToken : String) :
    (evictionExpiryRoom room origId capturedToken).board = room.board ∧
    (evictionExpiryRoom room origId capturedToken).currentPlayer =
      room.currentPlayer ∧
    (evictionExpiryRoom room origId capturedToken).gameActive =
      room.gameActive ∧
    (evictionExpiryRoom room origId capturedToken).scores = room.scores ∧
    (evictionExpiryRoom room origId capturedToken).messages = room.messages ∧
    (evictionExpiryRoom room origId capturedToken).winningCells =
      room.winningCells ∧
    (evictionExpiryRoom room origId capturedToken).lastStartingPlayer =
      room.lastStartingPlayer ∧
    (evictionExpiryRoom room origId capturedToken).disconnectTimers =
      room.disconnectTimers := by
  unfold evictionExpiryRoom
  split <;> exact ⟨rfl, rfl, rfl, rfl, rfl, rfl, rfl, rfl⟩

/-- C10: handling a connection loss and the later firing of its eviction
timer never modify a room's game content.  The disconnect path leaves every
room's board, `currentPlayer`, `gameActive`, scores, messages,
`winningCells` and players untouched (it only stores a timer handle and
removes the identity's waiting-queue entry), and the expiry path only
mutates the `players` mapping (or deletes the emptied room): any surviving
room has exactly the game content it had before, and rooms other than the
timer's own are left identical. -/
theorem disconnect_frame_spec (st : ServerState) (sockId : String) :
    (∀ roomId room, st.rooms.lookup roomId = some room →
      ∃ room1, (disconnectStep st sockId).rooms.lookup roomId = some room1 ∧
        room1.board = room.board ∧ room1.currentPlayer = room.currentPlayer ∧
        room1.gameActive = room.gameActive ∧ room1.scores = room.scores ∧
        room1.messages = room.messages ∧
        room1.winningCells = room.winningCells ∧
        room1.players = room.players ∧
        room1.lastStartingPlayer = room.lastStartingPlayer) ∧
    ((disconnectStep st sockId).rooms.map Prod.fst =
      st.rooms.map Prod.fst) ∧
    ((disconnectStep st sockId).waitingPlayers =
      removeFromWaiting st.waitingPlayers sockId) ∧
    (∀ rooms : List (String × Room), ∀ roomId origId capturedToken rid room1,
      (evictionExpiry rooms roomId origId capturedToken).1.lookup rid =
        some room1 →
      ∃ room, rooms.lookup rid = some room ∧
        room1.board = room.board ∧ room1.currentPlayer = room.currentPlayer ∧
        room1.gameActive = room.gameActive ∧ room1.scores = room.scores ∧
        room1.messages = room.messages ∧
        room1.winningCells = room.winningCells ∧
        room1.lastStartingPlayer = room.lastStartingPlayer) ∧
    (∀ rooms : List (String × Room), ∀ roomId origId capturedToken rid,
      rid ≠ roomId →
      (evictionExpiry rooms roomId origId capturedToken).1.lookup rid =
        rooms.lookup rid) := by
  refine ⟨?_, ?_, rfl, ?_, ?_⟩
  · intro roomId room h
    exact addDisconnectTimer_frame sockId st.rooms roomId room h
  · exact addDisconnectTimer_keys sockId st.rooms
  · intro rooms roomId origId capturedToken rid room1 h
    cases hlr : rooms.lookup roomId with
    | none =>
      simp only [evictionExpiry, hlr] at h
      exact ⟨room1, h, rfl, rfl, rfl, rfl, rfl, rfl, rfl⟩
    | some room0 =>
      simp only [evictionExpiry, hlr] at h
      by_cases hz : ((evictionExpiryRoom room0 origId capturedToken).players.length == 0) = true
      · rw [if_pos hz] at h
        by_cases hr : rid = roomId
        · subst hr
          rw [lookup_eraseKey_self] at h
          cases h
        · rw [lookup_eraseKey_ne roomId rid rooms hr] at h
          exact ⟨room1, h, rfl, rfl, rfl, rfl, rfl, rfl, rfl⟩
      · rw [if_neg hz] at h
        by_cases hr : rid = roomId
        · subst hr
          rw [lookup_setKey_self] at h
          injection h with h
          subst h
          obtain ⟨f1, f2, f3, f4, f5, f6, f7, _⟩ :=
            evictionExpiryRoom_frame room0 origId capturedToken
          exact ⟨room0, hlr, f1, f2, f3, f4, f5, f6, f7⟩
        · rw [lookup_setKey_ne roomId rid _ rooms hr] at h
          exact ⟨room1, h, rfl, rfl, rfl, rfl, rfl, rfl, rfl⟩
  · intro rooms roomId origId capturedToken rid hr
    cases hlr : rooms.lookup roomId with
    | none => simp [evictionExpiry, hlr]
    | some room0 =>
      simp only [evictionExpiry, hlr]
      by_cases hz : ((evictionExpiryRoom room0 origId capturedToken).players.length == 0) = true
      · rw [if_pos hz]
        exact lookup_eraseKey_ne roomId rid rooms hr
      · rw [if_neg hz]
        exact lookup_setKey_ne roomId rid _ rooms hr

/-- C10 witness: a disconnect of `s1` in a one-room state leaves the room's
game content identical. -/
theorem disconnect_frame_spec_witness :
    ((disconnectStep
        { rooms := [("R1", { initializeGameState with players := [("s1",
            { id := "s1", name := "Ann", role := "X", token := "tok" })] })],
          waitingPlayers := [] } "s1").rooms.lookup "R1").map Room.board =
      some (List.replicate 9 "") ∧
    ((disconnectStep
        { rooms := [("R1", { initializeGameState with players := [("s1",
            { id := "s1", name := "Ann", role := "X", token := "tok" })] })],
          waitingPlayers := [] } "s1").rooms.lookup "R1").map Room.scores =
      some { winsX := 0, winsO := 0, draws := 0 } ∧
    ((disconnectStep
        { rooms := [("R1", { initializeGameState with players := [("s1",
            { id := "s1", name := "Ann", role := "X", token := "tok" })] })],
          waitingPlayers := [] } "s1").rooms.lookup "R1").map Room.players =
      some [("s1", { id := "s1", name := "Ann", role := "X", token := "tok" })] := by
  obtain ⟨room1, h1, f1, _, _, f4, _, _, f7, _⟩ :=
    (disconnect_frame_spec
      { rooms := [("R1", { initializeGameState with players := [("s1",
          { id := "s1", name := "Ann", role := "X", token := "tok" })] })],
        waitingPlayers := [] } "s1").1 "R1"
      ({ initializeGameState with players := [("s1",
        { id := "s1", name := "Ann", role := "X", token := "tok" })] }) rfl
  rw [h1]
  exact ⟨congrArg some (f1.trans rfl), congrArg some (f4.trans rfl),
    congrArg some (f7.trans rfl)⟩

/-- Running `reconnectGame` on a registry none of whose players carries the token:
every room is scanned, nothing changes, the answer is `reconnectFailed`. -/
theorem reconnectGame_no_token (newId playerToken : String) :
    ∀ rooms : List (String × Room),
      (∀ kr ∈ rooms, ∀ kp ∈ kr.2.players, kp.2.token ≠ playerToken) →
      reconnectGame rooms newId playerToken = (rooms, .reconnectFailed) := by
  intro rooms
  induction rooms with
  | nil => intro _; rfl
  | cons kr rest ih =>
    intro h
    obtain ⟨rid, r⟩ := kr
    have hfind : findPlayerByToken r.players playerToken = none := by
      rw [findPlayerByToken, List.find?_eq_none]
      intro kp hkp
      simpa using h (rid, r) (by simp) kp hkp
    have hrest := ih (fun kr hkr kp hkp => h kr (by simp [hkr]) kp hkp)
    simp [reconnectGame, hfind, hrest]

/-- If `reconnectGame` answers `reconnectFailed`, no live room's player
carries the token. -/
theorem reconnectGame_failed_imp (newId playerToken : String) :
    ∀ rooms : List (String × Room),
      (reconnectGame rooms newId playerToken).2 = .reconnectFailed →
      ∀ kr ∈ rooms, ∀ kp ∈ kr.2.players, kp.2.token ≠ playerToken := by
  intro rooms
  induction rooms with
  | nil =>
    intro _ kr hkr
    cases hkr
  | cons kr0 rest ih =>
    intro h kr hkr kp hkp htok
    obtain ⟨rid, r⟩ := kr0
    cases hfind : findPlayerByToken r.players playerToken with
    | some op =>
      obtain ⟨oid, p⟩ := op
      simp [reconnectGame, hfind] at h
    | none =>
      rcases List.mem_cons.mp hkr with heq | hmem
      · subst heq
        have := List.find?_eq_none.mp hfind kp hkp
        simp [htok] at this
      · have h2 : (reconnectGame rest newId playerToken).2 = .reconnectFailed := by
          simpa [reconnectGame, hfind] using h
        exact ih h2 kr hmem kp hkp htok

/-- Running `reconnectGame` at the first token-bearing room: that room, and only
that room, is rewritten in place. -/
theorem reconnectGame_success_aux (newId playerToken : String) :
    ∀ pre : List (String × Room), ∀ (roomId : String) (room : Room)
      (post : List (String × Room)),
      (∀ kr ∈ pre, ∀ kp ∈ kr.2.players, kp.2.token ≠ playerToken) →
      ∀ oldId p, findPlayerByToken room.players playerToken = some (oldId, p) →
      reconnectGame (pre ++ (roomId, room) :: post) newId playerToken =
        (pre ++ (roomId, { room with
            disconnectTimers := eraseKey oldId room.disconnectTimers,
            players :=
              setKey newId { p with id := newId }
                (eraseKey oldId room.players) }) :: post,
          .reconnectSuccess roomId) := by
  intro pre
  induction pre with
  | nil =>
    intro roomId room post _ oldId p hfind
    simp [reconnectGame, hfind]
  | cons kr rest ih =>
    intro roomId room post hpre oldId p hfind
    obtain ⟨rid, r⟩ := kr
    have hrfind : findPlayerByToken r.players playerToken = none := by
      rw [findPlayerByToken, List.find?_eq_none]
      intro kp hkp
      simpa using hpre (rid, r) (by simp) kp hkp
    have hrest := ih roomId room post
      (fun kr h kp hkp => hpre kr (by simp [h]) kp hkp) oldId p hfind
    simp [reconnectGame, hrfind, hrest]

/-- C8: `reconnectGame(playerToken)` succeeds iff some live room contains a
player whose token equals `playerToken` (equivalently, it fails iff none
does, and a failed attempt changes no room state); on success — at the
first matching room and its first matching player entry — the pending
eviction timer for the player's previous identity is cancelled, the player
entry is re-keyed to the new connection identity with its `id` field updated
and its token, name and role unchanged, all other rooms are untouched, and
the requester is answered `reconnectSuccess` with that room's id. -/
theorem reconnectGame_spec (rooms : List (String × Room))
    (newId playerToken : String) :
    ((∀ kr ∈ rooms, ∀ kp ∈ kr.2.players, kp.2.token ≠ playerToken) →
      reconnectGame rooms newId playerToken = (rooms, .reconnectFailed)) ∧
    ((reconnectGame rooms newId playerToken).2 = .reconnectFailed ↔
      ∀ kr ∈ rooms, ∀ kp ∈ kr.2.players, kp.2.token ≠ playerToken) ∧
    (∀ pre roomId room post, rooms = pre ++ (roomId, room) :: post →
      (∀ kr ∈ pre, ∀ kp ∈ kr.2.players, kp.2.token ≠ playerToken) →
      ∀ ppre oldId p ppost, room.players = ppre ++ (oldId, p) :: ppost →
        (∀ kp ∈ ppre, kp.2.token ≠ playerToken) → p.token = playerToken →
        ∃ room1,
          reconnectGame rooms newId playerToken =
            (pre ++ (roomId, room1) :: post, .reconnectSuccess roomId) ∧
          room1.players =
            setKey newId { p with id := newId } (eraseKey oldId room.players) ∧
          room1.players.lookup newId = some { p with id := newId } ∧
          ({ p with id := newId } : Player).id = newId ∧
          ({ p with id := newId } : Player).token = p.token ∧
          ({ p with id := newId } : Player).name = p.name ∧
          ({ p with id := newId } : Player).role = p.role ∧
          room1.disconnectTimers = eraseKey oldId room.disconnectTimers ∧
          room1.disconnectTimers.lookup oldId = none ∧
          room1.board = room.board ∧
          room1.currentPlayer = room.currentPlayer ∧
          room1.gameActive = room.gameActive ∧
          room1.scores = room.scores ∧
          room1.messages = room.messages ∧
          room1.winningCells = room.winningCells) := by
  refine ⟨reconnectGame_no_token newId playerToken rooms, ?_, ?_⟩
  · constructor
    · exact reconnectGame_failed_imp newId playerToken rooms
    · intro h
      rw [reconnectGame_no_token newId playerToken rooms h]
  · intro pre roomId room post hdecomp hpre ppre oldId p ppost hpdecomp hppre htok
    have hfind : findPlayerByToken room.players playerToken = some (oldId, p) := by
      rw [findPlayerByToken, hpdecomp]
      apply find?_first
      · simp [htok]
      · intro kp hkp
        simpa using hppre kp hkp
    refine ⟨{ room with
        disconnectTimers := eraseKey oldId room.disconnectTimers,
        players :=
          setKey newId { p with id := newId } (eraseKey oldId room.players) },
      ?_, rfl, ?_, rfl, rfl, rfl, rfl, rfl, ?_, rfl, rfl, rfl, rfl, rfl, rfl⟩
    · rw [hdecomp]
      exact reconnectGame_success_aux newId playerToken pre roomId room post
        hpre oldId p hfind
    · exact lookup_setKey_self newId _ _
    · exact lookup_eraseKey_self oldId room.disconnectTimers

/-- C8 witness: one live room `R1` whose sole player `old1` holds token
`tok` and has a pending eviction timer; a reconnect with `tok` from the new
socket `new1` succeeds, cancels the timer and re-keys the entry to `new1`
with name, role and token unchanged. -/
theorem reconnectGame_spec_witness :
    (reconnectGame
        [("R1", { initializeGameState with
          players := [("old1",
            { id := "old1", name := "Ann", role := "X", token := "tok" })],
          disconnectTimers := [("old1", { token := "tok" })] })]
        "new1" "tok").2 = ReconnectResult.reconnectSuccess "R1" ∧
    ((reconnectGame
        [("R1", { initializeGameState with
          players := [("old1",
            { id := "old1", name := "Ann", role := "X", token := "tok" })],
          disconnectTimers := [("old1", { token := "tok" })] })]
        "new1" "tok").1.lookup "R1").map Room.players =
      some [("new1",
        { id := "new1", name := "Ann", role := "X", token := "tok" })] ∧
    ((reconnectGame
        [("R1", { initializeGameState with
          players := [("old1",
            { id := "old1", name := "Ann", role := "X", token := "tok" })],
          disconnectTimers := [("old1", { token := "tok" })] })]
        "new1" "tok").1.lookup "R1").map Room.disconnectTimers = some [] := by
  obtain ⟨room1, heq, hpl, _, _, _, _, _, htm, _⟩ :=
    (reconnectGame_spec
      [("R1", { initializeGameState with
        players := [("old1",
          { id := "old1", name := "Ann", role := "X", token := "tok" })],
        disconnectTimers := [("old1", { token := "tok" })] })]
      "new1" "tok").2.2
      [] "R1"
      ({ initializeGameState with
        players := [("old1",
          { id := "old1", name := "Ann", role := "X", token := "tok" })],
        disconnectTimers := [("old1", { token := "tok" })] })
      [] rfl (by intro kr hkr; cases hkr)
      [] "old1" { id := "old1", name := "Ann", role := "X", token := "tok" }
      [] rfl (by intro kp hkp; cases hkp) rfl
  rw [heq]
  refine ⟨rfl, ?_, ?_⟩
  · rw [List.nil_append, List.lookup_cons_self]
    exact congrArg some (hpl.trans (by rfl))
  · rw [List.nil_append, List.lookup_cons_self]
    exact congrArg some (htm.trans (by rfl))

/-- When `checkWin` reports a win, the winner is the (non-empty) mark at the
first cell of some winning combination. -/
theorem checkWin_winner_shape (board : List String)
    (h : (checkWin board).win = true) :
    ∃ t ∈ WINNING_COMBINATIONS,
      (checkWin board).winner = some (board.getD t.1 "") ∧
      board.getD t.1 "" ≠ "" := by
  unfold checkWin at h ⊢
  cases hfind : WINNING_COMBINATIONS.find? (comboWins board) with
  | none =>
    rw [hfind] at h
    simp at h
  | some t =>
    have hp := List.find?_some hfind
    have hmem := List.mem_of_find?_eq_some hfind
    exact ⟨t, hmem, rfl, ((comboWins_iff_tripleUniform board t).mp hp).1⟩

/-- A defaulted read of a list is an element of it or the default. -/
theorem getD_mem_or_default (l : List String) (k : Nat) :
    l.getD k "" ∈ l ∨ l.getD k "" = "" := by
  rw [List.getD_eq_getElem?_getD]
  cases hq : l[k]? with
  | some a =>
    left
    simp only [Option.getD_some]
    obtain ⟨hlt, he⟩ := List.getElem?_eq_some_iff.mp hq
    exact he ▸ List.getElem_mem hlt
  | none =>
    right
    simp

/-- On a board whose cells are all `""`, `"X"` or `"O"` after placing the
mark `v ∈ {X, O}`, a detected winner can only be `"X"` or `"O"`. -/
theorem checkWin_winner_XO (board : List String) (v : String)
    (hv : v = "X" ∨ v = "O")
    (hcells : ∀ c ∈ board, c = "" ∨ c = "X" ∨ c = "O") (i : Nat)
    (h : (checkWin (board.set i v)).win = true) :
    (checkWin (board.set i v)).winner = some "X" ∨
    (checkWin (board.set i v)).winner = some "O" := by
  obtain ⟨t, _, hw, hne⟩ := checkWin_winner_shape (board.set i v) h
  rcases getD_mem_or_default (board.set i v) t.1 with hm | hd
  · rcases List.mem_or_eq_of_mem_set hm with hm2 | heqv
    · rcases hcells _ hm2 with he | hx | ho
      · exact absurd he hne
      · left
        rw [hw, hx]
      · right
        rw [hw, ho]
    · rcases hv with hx | ho
      · left
        rw [hw, heqv, hx]
      · right
        rw [hw, heqv, ho]
  · exact absurd hd hne

/-- C1: every accepted `makeMove` — the room exists, the actor is one of
its players, the actor's role equals `currentPlayer`, the target cell reads
`""` and the game is active — places the mover's mark in the cell and then
does exactly one of: on a detected win it freezes the game, records the
winning triple and adds one to the winner's counter (draws untouched); else
on a full board it freezes the game and adds one to the draw counter; else
it hands the turn to the other mark.  A move that both fills the board and
wins lands in the first branch (win), never the draw branch.  Players,
messages and `lastStartingPlayer` are untouched in all three. -/
theorem makeMove_accept_spec (rooms : List (String × Room))
    (sockId roomId : String) (cellIndex : Nat) (room : Room) (player : Player)
    (b1 : List String)
    (hroom : rooms.lookup roomId = some room)
    (hplayer : room.players.lookup sockId = some player)
    (hrole : player.role = room.currentPlayer)
    (hcell : room.board[cellIndex]? = some "")
    (hactive : room.gameActive = true)
    (hcp : room.currentPlayer = "X" ∨ room.currentPlayer = "O")
    (hcells : ∀ c ∈ room.board, c = "" ∨ c = "X" ∨ c = "O")
    (hb1 : b1 = room.board.set cellIndex room.currentPlayer) :
    ∃ room1,
      (makeMove rooms sockId roomId cellIndex).1.lookup roomId = some room1 ∧
      room1.board = b1 ∧
      room1.players = room.players ∧
      room1.messages = room.messages ∧
      room1.lastStartingPlayer = room.lastStartingPlayer ∧
      (((checkWin b1).win = true ∧
          room1.gameActive = false ∧
          room1.winningCells = (checkWin b1).winningCells ∧
          room1.currentPlayer = room.currentPlayer ∧
          (((checkWin b1).winner = some "X" ∧
              room1.scores = { winsX := room.scores.winsX + 1, winsO := room.scores.winsO, draws := room.scores.draws }) ∨
            ((checkWin b1).winner = some "O" ∧
              room1.scores = { winsX := room.scores.winsX, winsO := room.scores.winsO + 1, draws := room.scores.draws }))) ∨
        ((checkWin b1).win = false ∧ checkDraw b1 = true ∧
          room1.gameActive = false ∧
          room1.winningCells = room.winningCells ∧
          room1.currentPlayer = room.currentPlayer ∧
          room1.scores = { winsX := room.scores.winsX, winsO := room.scores.winsO, draws := room.scores.draws + 1 }) ∨
        ((checkWin b1).win = false ∧ checkDraw b1 = false ∧
          room1.gameActive = true ∧
          room1.winningCells = room.winningCells ∧
          room1.scores = room.scores ∧
          ((room.currentPlayer = "X" ∧ room1.currentPlayer = "O") ∨
            (room.currentPlayer = "O" ∧ room1.currentPlayer = "X")))) := by
  subst hb1
  have hbne1 : (player.role != room.currentPlayer) = false := by simp [hrole]
  have hbne2 : (room.board[cellIndex]? != some "") = false := by simp [hcell]
  have hbne3 : (!room.gameActive) = false := by simp [hactive]
  cases hwin : (checkWin (room.board.set cellIndex room.currentPlayer)).win with
  | true =>
    rcases checkWin_winner_XO room.board room.currentPlayer hcp hcells cellIndex
        hwin with hX | hO
    · refine ⟨{ room with
          board := room.board.set cellIndex room.currentPlayer,
          gameActive := false,
          winningCells :=
            (checkWin (room.board.set cellIndex room.currentPlayer)).winningCells,
          scores := { winsX := room.scores.winsX + 1, winsO := room.scores.winsO, draws := room.scores.draws } },
        ?_, rfl, rfl, rfl, rfl, ?_⟩
      · have hmm : (makeMove rooms sockId roomId cellIndex).1 =
            setKey roomId ({ room with
              board := room.board.set cellIndex room.currentPlayer,
              gameActive := false,
              winningCells :=
                (checkWin (room.board.set cellIndex room.currentPlayer)).winningCells,
              scores := { winsX := room.scores.winsX + 1, winsO := room.scores.winsO, draws := room.scores.draws } } : Room)
              rooms := by
          simp [makeMove, hroom, hplayer, hbne1, hbne2, hbne3, hwin, hX]
        rw [hmm]
        exact lookup_setKey_self roomId _ rooms
      · exact Or.inl ⟨rfl, rfl, rfl, rfl, Or.inl ⟨hX, rfl⟩⟩
    · refine ⟨{ room with
          board := room.board.set cellIndex room.currentPlayer,
          gameActive := false,
          winningCells :=
            (checkWin (room.board.set cellIndex room.currentPlayer)).winningCells,
          scores := { winsX := room.scores.winsX, winsO := room.scores.winsO + 1, draws := room.scores.draws } },
        ?_, rfl, rfl, rfl, rfl, ?_⟩
      · have hOX : ((some "O" : Option String) == some "X") = false := by decide
        have hmm : (makeMove rooms sockId roomId cellIndex).1 =
            setKey roomId ({ room with
              board := room.board.set cellIndex room.currentPlayer,
              gameActive := false,
              winningCells :=
                (checkWin (room.board.set cellIndex room.currentPlayer)).winningCells,
              scores := { winsX := room.scores.winsX, winsO := room.scores.winsO + 1, draws := room.scores.draws } } : Room)
              rooms := by
          simp [makeMove, hroom, hplayer, hbne1, hbne2, hbne3, hwin, hO, hOX]
        rw [hmm]
        exact lookup_setKey_self roomId _ rooms
      · exact Or.inl ⟨rfl, rfl, rfl, rfl, Or.inr ⟨hO, rfl⟩⟩
  | false =>
    cases hdraw : checkDraw (room.board.set cellIndex room.currentPlayer) with
    | true =>
      refine ⟨{ room with
          board := room.board.set cellIndex room.currentPlayer,
          gameActive := false,
          scores := { winsX := room.scores.winsX, winsO := room.scores.winsO, draws := room.scores.draws + 1 } },
        ?_, rfl, rfl, rfl, rfl, ?_⟩
      · have hmm : (makeMove rooms sockId roomId cellIndex).1 =
            setKey roomId ({ room with
              board := room.board.set cellIndex room.currentPlayer,
              gameActive := false,
              scores := { winsX := room.scores.winsX, winsO := room.scores.winsO, draws := room.scores.draws + 1 } } : Room)
              rooms := by
          simp [makeMove, hroom, hplayer, hbne1, hbne2, hbne3, hwin, hdraw]
        rw [hmm]
        exact lookup_setKey_self roomId _ rooms
      · exact Or.inr (Or.inl ⟨rfl, rfl, rfl, rfl, rfl, rfl⟩)
    | false =>
      rcases hcp with hx | ho
      · refine ⟨{ room with
            board := room.board.set cellIndex room.currentPlayer,
            currentPlayer := "O" },
          ?_, rfl, rfl, rfl, rfl, ?_⟩
        · have hbx : (room.currentPlayer == "X") = true := by simp [hx]
          have hmm : (makeMove rooms sockId roomId cellIndex).1 =
              setKey roomId ({ room with
                board := room.board.set cellIndex room.currentPlayer,
                currentPlayer := "O" } : Room) rooms := by
            simp [makeMove, hroom, hplayer, hbne1, hbne2, hbne3, hwin, hdraw,
              hbx, hactive]
          rw [hmm]
          exact lookup_setKey_self roomId _ rooms
        · exact Or.inr (Or.inr ⟨rfl, rfl, hactive, rfl, rfl, Or.inl ⟨hx, rfl⟩⟩)
      · refine ⟨{ room with
            board := room.board.set cellIndex room.currentPlayer,
            currentPlayer := "X" },
          ?_, rfl, rfl, rfl, rfl, ?_⟩
        · have hbx : (room.currentPlayer == "X") = false := by simp [ho]
          have hmm : (makeMove rooms sockId roomId cellIndex).1 =
              setKey roomId ({ room with
                board := room.board.set cellIndex room.currentPlayer,
                currentPlayer := "X" } : Room) rooms := by
            simp [makeMove, hroom, hplayer, hbne1, hbne2, hbne3, hwin, hdraw,
              hbx, hactive]
          rw [hmm]
          exact lookup_setKey_self roomId _ rooms
        · exact Or.inr (Or.inr ⟨rfl, rfl, hactive, rfl, rfl, Or.inr ⟨ho, rfl⟩⟩)

/-- C1 witness: in a two-player room with top row `X X _` and `X` to move,
playing cell 2 completes the row: the board holds the move, the game
freezes, the winning triple `[0, 1, 2]` is recorded and `winsX` goes from 0
to 1 while draws stay 0. -/
theorem makeMove_accept_spec_witness :
    ((makeMove [("R1", { initializeGameState with
        board := ["X", "X", "", "O", "O", "", "", "", ""],
        players := [("s1", { id := "s1", name := "Ann", role := "X", token := "t1" }),
          ("s2", { id := "s2", name := "Bob", role := "O", token := "t2" })] })]
      "s1" "R1" 2).1.lookup "R1").map Room.board =
      some ["X", "X", "X", "O", "O", "", "", "", ""] ∧
    ((makeMove [("R1", { initializeGameState with
        board := ["X", "X", "", "O", "O", "", "", "", ""],
        players := [("s1", { id := "s1", name := "Ann", role := "X", token := "t1" }),
          ("s2", { id := "s2", name := "Bob", role := "O", token := "t2" })] })]
      "s1" "R1" 2).1.lookup "R1").map Room.gameActive = some false ∧
    ((makeMove [("R1", { initializeGameState with
        board := ["X", "X", "", "O", "O", "", "", "", ""],
        players := [("s1", { id := "s1", name := "Ann", role := "X", token := "t1" }),
          ("s2", { id := "s2", name := "Bob", role := "O", token := "t2" })] })]
      "s1" "R1" 2).1.lookup "R1").map Room.winningCells =
      some (some [0, 1, 2]) ∧
    ((makeMove [("R1", { initializeGameState with
        board := ["X", "X", "", "O", "O", "", "", "", ""],
        players := [("s1", { id := "s1", name := "Ann", role := "X", token := "t1" }),
          ("s2", { id := "s2", name := "Bob", role := "O", token := "t2" })] })]
      "s1" "R1" 2).1.lookup "R1").map Room.scores =
      some { winsX := 1, winsO := 0, draws := 0 } := by
  obtain ⟨room1, h1, hb, _, _, _, hcase⟩ :=
    makeMove_accept_spec
      [("R1", { initializeGameState with
        board := ["X", "X", "", "O", "O", "", "", "", ""],
        players := [("s1", { id := "s1", name := "Ann", role := "X", token := "t1" }),
          ("s2", { id := "s2", name := "Bob", role := "O", token := "t2" })] })]
      "s1" "R1" 2
      ({ initializeGameState with
        board := ["X", "X", "", "O", "O", "", "", "", ""],
        players := [("s1", { id := "s1", name := "Ann", role := "X", token := "t1" }),
          ("s2", { id := "s2", name := "Bob", role := "O", token := "t2" })] })
      ({ id := "s1", name := "Ann", role := "X", token := "t1" })
      ["X", "X", "X", "O", "O", "", "", "", ""]
      rfl rfl rfl rfl rfl (Or.inl rfl) (by decide) (by decide)
  rcases hcase with ⟨_, hga, hwc, _, hsc⟩ | ⟨hwinf, _⟩ | ⟨hwinf, _⟩
  · rcases hsc with ⟨_, hs⟩ | ⟨hwO, _⟩
    · rw [h1]
      exact ⟨congrArg some hb, congrArg some hga,
        congrArg some (hwc.trans (by decide)),
        congrArg some (hs.trans (by decide))⟩
    · have hx : (checkWin ["X", "X", "X", "O", "O", "", "", "", ""]).winner =
          some "X" := by decide
      rw [hx] at hwO
      simp at hwO
  · exact absurd hwinf (by decide)
  · exact absurd hwinf (by decide)

end TicTacToe